import Mathlib

/-!
Shallow embedding of the deterministic core of the RAG-PDF backend
(`src/server/server.js` and the older backend variant in `src/unnamed/part_004`):
page-reference extraction, context cleaning, relevance ranking, small-talk
classification, and answer assembly.  Strings are modelled as `List Char`
(with `String` wrappers named after the source functions); JavaScript regular
expression scans are modelled as left-to-right scans that try a matcher at
every position, exactly as `RegExp.exec`/`String.replace` with the `g` flag
proceed for the patterns used by the source (none of which benefits from
backtracking).  The scans use structural recursion on a fuel bounded by the
input length so that they evaluate by kernel reduction; a matcher always
consumes at least one character, so the fuel never runs out on the initial
call.  `toLowerCase` is modelled ASCII-faithfully by `Char.toLower`, and the
stable `Array.prototype.sort` by `List.insertionSort`, which is the stable
sort for a total preorder.
-/

namespace RagPdf

/-- JavaScript `\s` character class (also the set trimmed by `String.trim`):
space, tab, line terminators, and the Unicode space separators. -/
def isJsWS (c : Char) : Bool :=
  c == ' ' || c == '\t' || c == '\n' || c.toNat == 11 || c.toNat == 12 || c == '\r' ||
  c.toNat == 0xa0 || c.toNat == 0x1680 || (0x2000 ≤ c.toNat && c.toNat ≤ 0x200a) ||
  c.toNat == 0x2028 || c.toNat == 0x2029 || c.toNat == 0x202f || c.toNat == 0x205f ||
  c.toNat == 0x3000 || c.toNat == 0xfeff

/-- JavaScript `\w` character class: `[A-Za-z0-9_]`. -/
def isWordChar (c : Char) : Bool :=
  ('a' ≤ c && c ≤ 'z') || ('A' ≤ c && c ≤ 'Z') || ('0' ≤ c && c ≤ '9') || c == '_'

/-- Model of `String.prototype.trim`: drop `\s`-characters from both ends. -/
def jsTrim (l : List Char) : List Char :=
  ((l.dropWhile isJsWS).reverse.dropWhile isJsWS).reverse

/-- ASCII-faithful model of `String.prototype.toLowerCase`. -/
def lowerList (l : List Char) : List Char := l.map Char.toLower

/-- Model of `String.prototype.includes`: substring containment. -/
def containsSub (needle : List Char) : List Char → Bool
  | [] => needle.isEmpty
  | c :: cs => needle.isPrefixOf (c :: cs) || containsSub needle cs

/-- Model of `parseInt` on a run of decimal digits. -/
def digitsToNat (ds : List Char) : Nat :=
  ds.foldl (fun n c => 10 * n + (c.toNat - '0'.toNat)) 0

/-- Generic model of a global left-to-right regex scan: at each position try the
matcher `f`; on a match emit its tokens and resume after the matched text,
otherwise emit `g` of the current character and advance one position.  The
fuel argument only forces termination; every matcher used below consumes at
least one character, so runs started with `fuel = l.length` never exhaust it. -/
def scanWith {α : Type} (f : List Char → Option (List α × List Char))
    (g : Char → List α) : Nat → List Char → List α
  | _, [] => []
  | 0, _ :: _ => []
  | fuel + 1, c :: cs =>
    match f (c :: cs) with
    | some (e, r) => e ++ scanWith f g fuel r
    | none => g c ++ scanWith f g fuel cs

/-- Top-level scan entry point, with just enough fuel. -/
def scanAll {α : Type} (f : List Char → Option (List α × List Char))
    (g : Char → List α) (l : List Char) : List α :=
  scanWith f g l.length l

/-- A matcher consumes at least one character of its input. -/
def Consuming {α : Type} (f : List Char → Option (List α × List Char)) : Prop :=
  ∀ l e r, f l = some (e, r) → r.length < l.length

/-- Matcher for the pattern `\[Page (\d+)\]`: on success returns the parsed
page number and the text after the closing bracket.  (`\d+` is greedy and the
pattern cannot succeed through backtracking once the maximal digit run is not
followed by `]`, since the character after a shorter run would be a digit.) -/
def pageTok (l : List Char) : Option (Nat × List Char) :=
  match l with
  | '[' :: 'P' :: 'a' :: 'g' :: 'e' :: ' ' :: rest =>
    match rest.dropWhile Char.isDigit with
    | ']' :: suf =>
      if (rest.takeWhile Char.isDigit).isEmpty then none
      else some (digitsToNat (rest.takeWhile Char.isDigit), suf)
    | _ => none
  | _ => none

/-- The matcher `pageTok` wrapped for number-collecting scans. -/
def pageNumTok (l : List Char) : Option (List Nat × List Char) :=
  (pageTok l).map (fun p => ([p.1], p.2))

/-- All page numbers appearing in `[Page N]` markers, in scan order
(the loop `while ((match = pageRegex.exec(content)) !== null)`). -/
def pageMatches (l : List Char) : List Nat :=
  scanAll pageNumTok (fun _ => []) l

/-- Model of `extractPageNumbers` from `src/server/server.js` (identical in
`src/unnamed/part_004`): collect the `[Page N]` integers, de-duplicate
(`new Set`), and sort ascending (`.sort((a, b) => a - b)`).  `List.dedup`
keeps the last occurrence where a JavaScript `Set` keeps the first, and any
stable sort on the resulting distinct keys yields the same ascending list, so
the composite is faithful. -/
def extractPageNumbers (content : String) : List Nat :=
  ((pageMatches content.data).dedup).insertionSort (· ≤ ·)

/-! ### Context Cleaner (`cleanContext`, `src/unnamed/part_004` lines 370-378) -/

/-- The matcher `pageTok` wrapped for deletion scans (`.replace(/\[Page \d+\]/g, "")`). -/
def pageDelTok (l : List Char) : Option (List Char × List Char) :=
  (pageTok l).map (fun p => ([], p.2))

/-- Step `.replace(/\[Page \d+\]/g, "")`. -/
def removePageMarkers (l : List Char) : List Char :=
  scanAll pageDelTok (fun c => [c]) l

/-- Matcher for `\.{10,}`: a maximal run of at least ten dots (the greedy
quantifier consumes the whole run). -/
def dotRunTok (l : List Char) : Option (List Char × List Char) :=
  if 10 ≤ (l.takeWhile (· == '.')).length then some ([], l.dropWhile (· == '.')) else none

/-- Step `.replace(/\.{10,}/g, "")`. -/
def removeDotRuns (l : List Char) : List Char :=
  scanAll dotRunTok (fun c => [c]) l

/-- Matcher for `\s+`: a maximal whitespace run, replaced by one space. -/
def wsTok (l : List Char) : Option (List Char × List Char) :=
  match l with
  | [] => none
  | c :: cs => if isJsWS c then some ([' '], cs.dropWhile isJsWS) else none

/-- Step `.replace(/\s+/g, " ")`. -/
def collapseWS (l : List Char) : List Char :=
  scanAll wsTok (fun c => [c]) l

/-- Matcher for the literal `undefined`. -/
def undefTok (l : List Char) : Option (List Char × List Char) :=
  if ("undefined".toList).isPrefixOf l then some ([], l.drop 9) else none

/-- Step `.replace(/undefined/g, "")`. -/
def removeUndefined (l : List Char) : List Char :=
  scanAll undefTok (fun c => [c]) l

/-- The safelist of `[^\w\s.,!?;:'"-]`: word characters, whitespace, and the
listed punctuation survive; everything else is removed. -/
def isSafeChar (c : Char) : Bool :=
  isWordChar c || isJsWS c || c == '.' || c == ',' || c == '!' || c == '?' ||
    c == ';' || c == ':' || c == '\x27' || c == '"' || c == '-'

/-- Step `.replace(/[^\w\s.,!?;:'"-]/g, "")`. -/
def removeSpecial (l : List Char) : List Char := l.filter isSafeChar

/-- Model of `cleanContext` from `src/unnamed/part_004`: the five global replacements
followed by `trim`, in source order. -/
def cleanList (l : List Char) : List Char :=
  jsTrim (removeSpecial (removeUndefined (collapseWS (removeDotRuns (removePageMarkers l)))))

/-- Wrapper for `cleanContext` on `String`s. -/
def cleanContext (content : String) : String := ⟨cleanList content.data⟩

/-! ### Relevance Ranker (`filterRelevantContent`, `src/server/server.js`
lines 293-340) -/

/-- The sentence-splitting class `[.!?]` of `content.split(/[.!?]/)`. -/
def isSentenceEnd (c : Char) : Bool := c == '.' || c == '!' || c == '?'

/-- Model of `String.prototype.split` on a single-character class: pieces between
separator occurrences, including empty pieces. -/
def splitOnEnds : List Char → List (List Char)
  | [] => [[]]
  | c :: cs =>
    match splitOnEnds cs, isSentenceEnd c with
    | r :: rs, true => [] :: r :: rs
    | r :: rs, false => (c :: r) :: rs
    | [], _ => [[]]

/-- Step `content.split(/[.!?]/).filter(s => s.trim().length > 10)`. -/
def sentenceCandidates (content : List Char) : List (List Char) :=
  (splitOnEnds content).filter (fun s => 10 < (jsTrim s).length)

/-- Model of `String.prototype.split(/\s+/)`: pieces between maximal whitespace runs
(a leading or trailing run contributes an empty piece).  Fuel-structured for
kernel evaluation; the initial fuel `l.length` is always sufficient. -/
def splitWSF : Nat → List Char → List (List Char)
  | _, [] => [[]]
  | 0, l => [l]
  | fuel + 1, l =>
    let piece := l.takeWhile (fun c => !isJsWS c)
    match l.dropWhile (fun c => !isJsWS c) with
    | [] => [piece]
    | rest@(_ :: _) => piece :: splitWSF fuel (rest.dropWhile isJsWS)

/-- Step `query.toLowerCase().split(/\s+/)`. -/
def queryKeywords (query : List Char) : List (List Char) :=
  splitWSF (lowerList query).length (lowerList query)

/-- One scored sentence (`{ sentence, score }`). -/
structure ScoredSentence where
  sentence : List Char
  score : Nat
deriving DecidableEq

/-- The per-sentence score of the `src/server/server.js` ranker: +3 per
keyword of length over three contained in the lowercased sentence, +10 for
the full lowercased query as a substring, +15 for a definitional pattern,
and +5 for `question`/`answer` on a `"qa"` document. -/
def scoreSentence (query : List Char) (pdfType : String) (sentence : List Char) : Nat :=
  let lowerSentence := lowerList sentence
  let lowerQuery := lowerList query
  let base := (queryKeywords query).foldl
    (fun sc keyword =>
      if 3 < keyword.length && containsSub keyword lowerSentence then sc + 3 else sc) 0
  let withPhrase := if containsSub lowerQuery lowerSentence then base + 10 else base
  let withDef :=
    if (lowerQuery ++ (" is".toList)).isPrefixOf lowerSentence ||
        (lowerQuery ++ (" are".toList)).isPrefixOf lowerSentence ||
        containsSub (("is ".toList) ++ lowerQuery) lowerSentence ||
        containsSub (("are ".toList) ++ lowerQuery) lowerSentence ||
        containsSub ("defined as".toList) lowerSentence ||
        containsSub ("refers to".toList) lowerSentence
    then withPhrase + 15 else withPhrase
  if pdfType == "qa" &&
      (containsSub ("question".toList) lowerSentence || containsSub ("answer".toList) lowerSentence)
  then withDef + 5 else withDef

/-- The scoring formula as the specification words it (for comparison with
the source-derived `scoreSentence`): 3 points per query keyword of length
greater than three literally contained in the lowercased sentence, plus 10
if the lowercased sentence contains the full lowercased query, plus 15 if
the sentence matches a definitional pattern relative to the query. -/
def specScore (query sentence : List Char) : Nat :=
  3 * ((queryKeywords query).countP
        (fun k => 3 < k.length && containsSub k (lowerList sentence))) +
    (if containsSub (lowerList query) (lowerList sentence) then 10 else 0) +
    (if ((lowerList query) ++ (" is".toList)).isPrefixOf (lowerList sentence) ||
        ((lowerList query) ++ (" are".toList)).isPrefixOf (lowerList sentence) ||
        containsSub (("is ".toList) ++ (lowerList query)) (lowerList sentence) ||
        containsSub (("are ".toList) ++ (lowerList query)) (lowerList sentence) ||
        containsSub ("defined as".toList) (lowerList sentence) ||
        containsSub ("refers to".toList) (lowerList sentence)
     then 15 else 0)

/-- Step `sentences.map(sentence => ({ sentence, score }))`, in document order. -/
def scoredSentences (content query : List Char) (pdfType : String) : List ScoredSentence :=
  (sentenceCandidates content).map (fun s => ⟨s, scoreSentence query pdfType s⟩)

/-- The comparator `(a, b) => b.score - a.score`: `a` may precede `b` iff
`b.score ≤ a.score`. -/
def scoreGE (a b : ScoredSentence) : Prop := b.score ≤ a.score

instance : DecidableRel scoreGE := fun a b => Nat.decLe b.score a.score

instance : IsTotal ScoredSentence scoreGE := ⟨fun a b => Nat.le_total b.score a.score⟩

instance : IsTrans ScoredSentence scoreGE := ⟨fun _ _ _ h1 h2 => Nat.le_trans h2 h1⟩

/-- Step `.filter(item => item.score > 0)`, still in document order. -/
def relevantScored (content query : List Char) (pdfType : String) : List ScoredSentence :=
  (scoredSentences content query pdfType).filter (fun item => 0 < item.score)

/-- Step `.sort((a, b) => b.score - a.score)`: JavaScript sorts are stable, and the
stable sort for a total preorder is insertion sort. -/
def rankedScored (content query : List Char) (pdfType : String) : List ScoredSentence :=
  (relevantScored content query pdfType).insertionSort scoreGE

/-- Step `.map(item => item.sentence)`. -/
def relevantSentences (content query : List Char) (pdfType : String) : List (List Char) :=
  (rankedScored content query pdfType).map (fun item => item.sentence)

/-- Model of `filterRelevantContent` from `src/server/server.js`:
`relevantSentences.slice(0, 7).join(". ") + "."`. -/
def filterRelevantContent (content query pdfType : String) : String :=
  ⟨List.intercalate (". ".toList) ((relevantSentences content.data query.data pdfType).take 7) ++
    (".".toList)⟩

/-! ### Small-Talk Classifier (`isSmallTalk` / `getSmallTalkResponse`,
`src/server/server.js` lines 429-471).  The `/i` flag is modelled by testing
the lowercased trimmed query against the lowercase patterns. -/

/-- Pattern `/^hi$|^hello$|^hey$|^greetings$/i`: four fully anchored alternatives. -/
def patternGreeting (s : List Char) : Bool :=
  s == ("hi".toList) || s == ("hello".toList) || s == ("hey".toList) || s == ("greetings".toList)

/-- Pattern `/^how are you$/i`. -/
def patternHowAreYou (s : List Char) : Bool := s == ("how are you".toList)

/-- Pattern `/^thanks|thank you|thx/i`: only the first alternative is anchored. -/
def patternThanks (s : List Char) : Bool :=
  ("thanks".toList).isPrefixOf s || containsSub ("thank you".toList) s ||
    containsSub ("thx".toList) s

/-- Pattern `/^good morning|good afternoon|good evening/i`: only the first
alternative is anchored. -/
def patternTimeOfDay (s : List Char) : Bool :=
  ("good morning".toList).isPrefixOf s || containsSub ("good afternoon".toList) s ||
    containsSub ("good evening".toList) s

/-- Pattern `/^what's up|sup/i`: only the first alternative is anchored, so `sup`
matches anywhere in the query. -/
def patternWhatsUp (s : List Char) : Bool :=
  ("what\x27s up".toList).isPrefixOf s || containsSub ("sup".toList) s

/-- Pattern `/^who are you$/i`. -/
def patternWhoAreYou (s : List Char) : Bool := s == ("who are you".toList)

/-- The `smallTalkPatterns` array, in source order. -/
def smallTalkPatterns : List (List Char → Bool) :=
  [patternGreeting, patternHowAreYou, patternThanks, patternTimeOfDay,
   patternWhatsUp, patternWhoAreYou]

/-- Model of `isSmallTalk`: `smallTalkPatterns.some(pattern => pattern.test(query.trim()))`. -/
def isSmallTalk (query : String) : Bool :=
  smallTalkPatterns.any (fun p => p (lowerList (jsTrim query.data)))

/-- How many of the six patterns match the query (used to state the
"matches exactly one pattern" part of the spec). -/
def smallTalkMatchCount (query : String) : Nat :=
  smallTalkPatterns.countP (fun p => p (lowerList (jsTrim query.data)))

/-- Model of `getSmallTalkResponse`: first matching pattern (tested against
`query.toLowerCase().trim()`) picks the canned response; the time-of-day
response echoes the original query. -/
def getSmallTalkResponse (query : String) : String :=
  let lowerQuery := jsTrim (lowerList query.data)
  if patternGreeting lowerQuery then
    "Hello! I\x27m your PDF assistant, ready to help you explore and understand your documents. What would you like to know about your PDF?"
  else if patternHowAreYou lowerQuery then
    "I\x27m doing great, thanks for asking! I\x27m ready to help you understand your document. What would you like to explore today?"
  else if patternThanks lowerQuery then
    "You\x27re welcome! I\x27m glad I could help. Is there anything else you\x27d like to know about your document?"
  else if patternTimeOfDay lowerQuery then
    query ++ "! It\x27s a great time to learn something new from your document. What would you like to explore?"
  else if patternWhatsUp lowerQuery then
    "Just ready to help you understand your documents! What would you like to know?"
  else if patternWhoAreYou lowerQuery then
    "I\x27m your PDF assistant, here to help you understand and explore the content of your documents. You can ask me questions about anything in your PDF, and I\x27ll provide detailed explanations!"
  else
    "How can I help you with your document today?"

/-! ### Answer-Request Assembler.  The external model call is an oracle
`gen : String → Except String String` mapping a prompt to either a generated
text or a raised error; `apiKeySet` models `process.env.GOOGLE_API_KEY`. -/

/-- The citation fragment `This information can be found on pages ... .`. -/
def pageRefFragment (pageReferences : List Nat) : String :=
  "This information can be found on pages " ++
    String.intercalate ", " (pageReferences.map Nat.repr) ++ "."

/-- Model of `pageRefText`: empty when there are no page references. -/
def pageRefText (pageReferences : List Nat) : String :=
  if 0 < pageReferences.length then pageRefFragment pageReferences else ""

/-- The five-way depth instruction of `generateEnhancedAnswer`
(`src/server/server.js` lines 209-220). -/
def depthInstruction (depth : String) : String :=
  if depth == "step-by-step" then
    "Provide a detailed, step-by-step explanation. Break down complex concepts into manageable steps with clear transitions between them."
  else if depth == "deep" then
    "Provide a comprehensive, in-depth explanation with detailed examples, analogies, and thorough context."
  else if depth == "deeper" then
    "Provide an extremely detailed, exhaustive explanation covering all aspects, with multiple examples, practical applications, and connections to related concepts."
  else if depth == "simple" then
    "Provide a simple, easy-to-understand explanation. Avoid technical jargon and use everyday language with relatable examples."
  else
    "Provide a clear, direct answer that addresses the specific question."

/-- The `"qa"` document-type instruction (`src/server/server.js` lines 223-226). -/
def typeInstruction (pdfType : String) : String :=
  if pdfType == "qa" then
    "This document appears to be in a question-answer format. When appropriate, structure your response in a similar Q&A style or clearly address the questions posed in the document."
  else ""

/-- The prompt template of `generateEnhancedAnswer` (lines 232-259). -/
def enhancedPrompt (query context : String) (pageReferences : List Nat)
    (pdfType depth : String) : String :=
  "\n      You are an expert educational assistant that provides exceptional answers based on document content.\n\n      DOCUMENT TYPE: " ++
    pdfType ++ "\n      USER QUESTION: \"" ++ query ++ "\"\n      REQUESTED DEPTH: " ++
    depth ++ "\n\n      DOCUMENT CONTEXT:\n      " ++ context ++
    "\n\n      INSTRUCTIONS:\n      1. " ++ depthInstruction depth ++ "\n      2. " ++
    typeInstruction pdfType ++
    "\n      3. Answer the question based ONLY on the provided document content\n      4. Do not make up information not found in the document\n      5. If the document doesn\x27t contain the answer, say so politely but helpfully\n      6. Write in a natural, engaging, and conversational tone\n      7. Format your response appropriately - use headings, bullet points, or numbered steps when helpful\n      8. Include the page reference: \"" ++
    pageRefText pageReferences ++
    "\"\n\n      IMPORTANT: \n      - If explaining a process or concept, break it down into logical steps\n      - Use analogies and examples to make complex ideas accessible\n      - For mathematical or technical content, show your work or reasoning process\n      - Adapt your explanation style to match the document\x27s content and structure\n\n      Please provide your enhanced answer:\n    "

/-- The fallback answer of `generateEnhancedAnswer` (line 274). -/
def enhancedFallback (query : String) (pageReferences : List Nat) : String :=
  "Based on the document, I found relevant information about \"" ++ query ++ "\". " ++
    (if 0 < pageReferences.length then pageRefFragment pageReferences else "")

/-- Model of `generateEnhancedAnswer` from `src/server/server.js` (lines 192-276): one
generation call; the citation fragment is appended when missing from the
response; any error inside the `try` block (missing API key or a raised
generation error) is caught and replaced by the templated fallback. -/
def generateEnhancedAnswer (apiKeySet : Bool) (gen : String → Except String String)
    (query context : String) (pageReferences : List Nat) (pdfType depth : String) : String :=
  let refText := pageRefText pageReferences
  let attempt : Except String String := do
    if !apiKeySet then throw "GOOGLE_API_KEY is not set"
    let text ← gen (enhancedPrompt query context pageReferences pdfType depth)
    pure (if !(refText == "") && !containsSub refText.data text.data
          then text ++ "\n\n" ++ refText else text)
  match attempt with
  | .ok r => r
  | .error _ => enhancedFallback query pageReferences

/-- The two-way depth instruction of `generateNaturalAnswer`
(`src/unnamed/part_004` lines 441-448). -/
def depthInstruction004 (depth : String) : String :=
  if depth == "deep" then
    "Provide a comprehensive, in-depth explanation with detailed examples and thorough context."
  else if depth == "deeper" then
    "Provide an extremely detailed, exhaustive explanation covering all aspects, with multiple examples and practical applications."
  else
    "Provide a clear, direct answer that addresses the specific question."

/-- The first prompt of `generateNaturalAnswer` (lines 455-477). -/
def naturalPrompt (query context : String) (pageReferences : List Nat) (depth : String) : String :=
  "\n      You are a helpful assistant that provides accurate answers based on document content.\n\n      USER QUESTION: \"" ++
    query ++ "\"\n\n      DOCUMENT CONTENT:\n      " ++ context ++
    "\n\n      INSTRUCTIONS:\n      1. Answer the user\x27s question in a natural, conversational tone\n      2. Use ONLY the information from the provided document content\n      3. " ++
    depthInstruction004 depth ++
    "\n      4. If the document doesn\x27t contain the answer, say: \"I couldn\x27t find specific information about this in the document. Please try asking about a different topic or rephrasing your question.\"\n      5. Format your response as a clear, well-structured answer\n      6. Do not mention that you\x27re \"based on the document\" - just provide the answer directly\n      7. At the end, mention the page references like this: \"" ++
    pageRefText pageReferences ++
    "\"\n\n      IMPORTANT: \n      - Do not just copy text from the document. Synthesize the information into a coherent answer.\n      - If the document content doesn\x27t directly answer the question, admit it rather than making up an answer.\n\n      Please provide your answer:\n    "

/-- The relaxed retry prompt of `generateNaturalAnswer` (lines 491-501). -/
def naturalRetryPrompt (query context : String) : String :=
  "\n        The user asked: \"" ++ query ++
    "\"\n        \n        Here is the relevant content from the document:\n        " ++
    context ++
    "\n        \n        Even if the information is not perfect, try to provide the most helpful answer possible based on what\x27s available.\n        If you can infer something from the context, do so but mention it\x27s an inference.\n        If there\x27s truly nothing relevant, say: \"I couldn\x27t find specific information about this in the document. \n        The document seems to focus on other topics. Please try asking about something else.\"\n      "

/-- The degeneracy test of `generateNaturalAnswer` (lines 486-488): a refusal
phrase or a length below 50 (string length is UTF-16 code units in the
source; for the ASCII phrases involved this is the character count). -/
def isDegenerate (text : String) : Bool :=
  containsSub ("I couldn\x27t find".toList) text.data ||
    containsSub ("the document doesn\x27t contain".toList) text.data ||
    text.data.length < 50

/-- The fallback answer of `generateNaturalAnswer` (lines 516-521). -/
def naturalFallback (query : String) (pageReferences : List Nat) : String :=
  if 0 < pageReferences.length then
    "I found some information about \"" ++ query ++
      "\" in the document. This information can be found on pages " ++
      String.intercalate ", " (pageReferences.map Nat.repr) ++ "."
  else
    "I couldn\x27t find specific information about \"" ++ query ++
      "\" in the document. Please try asking about a different topic."

/-- Model of `generateNaturalAnswer` from `src/unnamed/part_004` (lines 424-523): one
generation call; if its output is degenerate, exactly one retry with the
relaxed prompt, whose output replaces the first; then the citation fragment
is appended when missing and the output is not an "I couldn\x27t find"
response; any raised error is caught and replaced by the fallback. -/
def generateNaturalAnswer (apiKeySet : Bool) (gen : String → Except String String)
    (query context : String) (pageReferences : List Nat) (depth : String) : String :=
  let refText := pageRefText pageReferences
  let attempt : Except String String := do
    if !apiKeySet then throw "GOOGLE_API_KEY is not set"
    let first ← gen (naturalPrompt query context pageReferences depth)
    let kept ← if isDegenerate first then gen (naturalRetryPrompt query context) else pure first
    pure (if !(refText == "") && !containsSub refText.data kept.data &&
            !containsSub ("I couldn\x27t find".toList) kept.data
          then kept ++ " " ++ refText else kept)
  match attempt with
  | .ok r => r
  | .error _ => naturalFallback query pageReferences

/-- The sequence of prompts `generateNaturalAnswer` sends to the model, in
order: the first prompt, and the retry prompt exactly when the first call
returned a degenerate text (the retry is still counted when it raises). -/
def naturalAnswerCalls (apiKeySet : Bool) (gen : String → Except String String)
    (query context : String) (pageReferences : List Nat) (depth : String) : List String :=
  if !apiKeySet then []
  else
    let p1 := naturalPrompt query context pageReferences depth
    match gen p1 with
    | .error _ => [p1]
    | .ok first =>
      if isDegenerate first then [p1, naturalRetryPrompt query context] else [p1]

/-! ### The `/chat` endpoint (`src/server/server.js` lines 342-426), modelled
from the point where the request has a query and a known PDF id: retrieval is
the abstract input `retrieved` (the page contents of the matched chunks). -/

/-- The JSON payload of a successful `/chat` response. -/
structure ChatResponse where
  query : String
  results : String
  pageReferences : List Nat
  count : Nat
deriving DecidableEq

/-- The no-match answer text (lines 392-399). -/
def noMatchMessage (query : String) : String :=
  "I couldn\x27t find specific information about \"" ++ query ++
    "\" in this document. The document might focus on different topics. Could you try asking about something else or rephrasing your question?"

/-- The `/chat` pipeline: small talk short-circuits retrieval; an empty
retrieval yields the no-match response; otherwise the chunk texts are joined,
page references extracted, context ranked, and the answer generated. -/
def chatHandler (query pdfType depth : String) (retrieved : List String)
    (apiKeySet : Bool) (gen : String → Except String String) : ChatResponse :=
  if isSmallTalk query then
    { query := query, results := getSmallTalkResponse query, pageReferences := [], count := 0 }
  else if retrieved.length == 0 then
    { query := query, results := noMatchMessage query, pageReferences := [], count := 0 }
  else
    let relevantContent := String.intercalate " " retrieved
    let pageReferences := extractPageNumbers relevantContent
    let filteredContext := filterRelevantContent relevantContent query pdfType
    { query := query,
      results := generateEnhancedAnswer apiKeySet gen query filteredContext pageReferences
        pdfType depth,
      pageReferences := pageReferences,
      count := retrieved.length }

end RagPdf

namespace RagPdf

/-! ## Generic facts about the scan combinator -/

/-- With a consuming matcher, the scan result does not depend on the fuel once
the fuel covers the input length. -/
theorem scanWith_fuel {α : Type} {f : List Char → Option (List α × List Char)}
    (hf : Consuming f) (g : Char → List α) :
    ∀ fm fn (l : List Char), l.length ≤ fm → l.length ≤ fn →
      scanWith f g fm l = scanWith f g fn l := by
  intro fm
  induction fm with
  | zero =>
    intro fn l hm _
    have hl : l = [] := List.eq_nil_of_length_eq_zero (Nat.le_zero.mp hm)
    subst hl
    cases fn <;> rfl
  | succ m IH =>
    intro fn l hm hn
    cases l with
    | nil => cases fn <;> rfl
    | cons c cs =>
      cases fn with
      | zero => simp at hn
      | succ n =>
        simp only [scanWith]
        cases hfc : f (c :: cs) with
        | some p =>
          obtain ⟨e, r⟩ := p
          have hr := hf _ _ _ hfc
          simp only [List.length_cons] at hm hn hr
          simp only [IH n r (by omega) (by omega)]
        | none =>
          simp only [List.length_cons] at hm hn
          simp only [IH n cs (by omega) (by omega)]

theorem scanAll_cons_some {α : Type} {f : List Char → Option (List α × List Char)}
    (hf : Consuming f) (g : Char → List α) {c : Char} {cs e : List _} {r : List Char}
    (h : f (c :: cs) = some (e, r)) :
    scanAll f g (c :: cs) = e ++ scanAll f g r := by
  have hr := hf _ _ _ h
  simp only [List.length_cons] at hr
  unfold scanAll
  simp only [List.length_cons, scanWith, h]
  rw [scanWith_fuel hf g cs.length r.length r (by omega) le_rfl]

theorem scanAll_cons_none {α : Type} {f : List Char → Option (List α × List Char)}
    (g : Char → List α) {c : Char} {cs : List Char}
    (h : f (c :: cs) = none) :
    scanAll f g (c :: cs) = g c ++ scanAll f g cs := by
  unfold scanAll
  simp only [List.length_cons, scanWith, h]

/-- Recursion principle following the call structure of a consuming scan. -/
theorem scanAll_rec {α : Type} {f : List Char → Option (List α × List Char)}
    (hf : Consuming f) (g : Char → List α) (P : List Char → List α → Prop)
    (hnil : P [] [])
    (hsome : ∀ c cs e r, f (c :: cs) = some (e, r) → P r (scanAll f g r) →
      P (c :: cs) (e ++ scanAll f g r))
    (hnone : ∀ c cs, f (c :: cs) = none → P cs (scanAll f g cs) →
      P (c :: cs) (g c ++ scanAll f g cs)) :
    ∀ l, P l (scanAll f g l) := by
  have key : ∀ n l, l.length ≤ n → P l (scanAll f g l) := by
    intro n
    induction n with
    | zero =>
      intro l hl
      have : l = [] := List.eq_nil_of_length_eq_zero (Nat.le_zero.mp hl)
      subst this
      exact hnil
    | succ n IH =>
      intro l hl
      cases l with
      | nil => exact hnil
      | cons c cs =>
        cases hfc : f (c :: cs) with
        | some p =>
          obtain ⟨e, r⟩ := p
          rw [scanAll_cons_some hf g hfc]
          have hr := hf _ _ _ hfc
          simp only [List.length_cons] at hr hl
          exact hsome c cs e r hfc (IH r (by omega))
        | none =>
          rw [scanAll_cons_none g hfc]
          simp only [List.length_cons] at hl
          exact hnone c cs hfc (IH cs (by omega))
  exact fun l => key l.length l le_rfl

/-- A rewriting scan whose matcher never fires on any suffix is the identity. -/
theorem scanAll_id_of_none {f : List Char → Option (List Char × List Char)} :
    ∀ l : List Char, (∀ c cs, (c :: cs) <:+ l → f (c :: cs) = none) →
      scanAll f (fun c => [c]) l = l := by
  intro l
  induction l with
  | nil => intro _; rfl
  | cons c cs ih =>
    intro h
    rw [scanAll_cons_none _ (h c cs (List.suffix_refl _))]
    rw [ih (fun c' cs' hs => h c' cs' (hs.trans (List.suffix_cons c cs)))]
    rfl

/-- Correctness of `containsSub`: it decides substring containment. -/
theorem containsSub_spec {needle l : List Char} : containsSub needle l = true ↔ needle <:+: l := by
  induction l with
  | nil => simp [containsSub, List.isEmpty_iff]
  | cons c cs ih => simp [containsSub, ih, List.infix_cons_iff]

end RagPdf

namespace RagPdf

/-! ## Page-Reference Extractor -/

/-- A successful `pageTok` match decomposes its input into the literal marker
(with a non-empty all-digit run parsing to the returned number) followed by
the remainder. -/
theorem pageTok_some {l : List Char} {n : Nat} {suf : List Char}
    (h : pageTok l = some (n, suf)) :
    ∃ ds : List Char, ds ≠ [] ∧ (∀ c ∈ ds, c.isDigit) ∧ digitsToNat ds = n ∧
      l = '[' :: 'P' :: 'a' :: 'g' :: 'e' :: ' ' :: (ds ++ ']' :: suf) := by
  unfold pageTok at h
  split at h
  · rename_i rest
    split at h
    · rename_i suf' hdrop
      split at h
      · simp at h
      · rename_i hne
        simp only [Option.some.injEq, Prod.mk.injEq] at h
        obtain ⟨h1, h2⟩ := h
        subst h2
        refine ⟨rest.takeWhile Char.isDigit, ?_, ?_, h1, ?_⟩
        · simpa [List.isEmpty_iff] using hne
        · intro c hc
          exact List.mem_takeWhile_imp hc
        · have hsplit := List.takeWhile_append_dropWhile (p := Char.isDigit) (l := rest)
          rw [hdrop] at hsplit
          conv_lhs => rw [← hsplit]
    · simp at h
  · simp at h

theorem pageTok_lt {l : List Char} {n : Nat} {suf : List Char}
    (h : pageTok l = some (n, suf)) : suf.length < l.length := by
  obtain ⟨ds, _, _, _, hl⟩ := pageTok_some h
  subst hl
  simp [List.length_append]
  omega

theorem pageNumTok_consuming : Consuming pageNumTok := by
  intro l e r h
  unfold pageNumTok at h
  cases hp : pageTok l with
  | none => rw [hp] at h; simp at h
  | some p =>
    rw [hp] at h
    simp only [Option.map_some', Option.some.injEq, Prod.mk.injEq] at h
    obtain ⟨h1, h2⟩ := h
    subst h2
    exact pageTok_lt (l := l) (by rw [hp])

theorem pageDelTok_consuming : Consuming pageDelTok := by
  intro l e r h
  unfold pageDelTok at h
  cases hp : pageTok l with
  | none => rw [hp] at h; simp at h
  | some p =>
    rw [hp] at h
    simp only [Option.map_some', Option.some.injEq, Prod.mk.injEq] at h
    obtain ⟨h1, h2⟩ := h
    subst h2
    exact pageTok_lt (l := l) (by rw [hp])

/-- Every number produced by the page scan comes from a literal `[Page N]`
marker occurring in the input. -/
theorem pageMatches_sound :
    ∀ l : List Char, ∀ n ∈ pageMatches l,
      ∃ ds : List Char, ds ≠ [] ∧ (∀ c ∈ ds, c.isDigit) ∧ digitsToNat ds = n ∧
        ('[' :: 'P' :: 'a' :: 'g' :: 'e' :: ' ' :: (ds ++ [']'])) <:+: l := by
  have := scanAll_rec pageNumTok_consuming (fun _ => [])
    (P := fun lin lout => ∀ n ∈ lout,
      ∃ ds : List Char, ds ≠ [] ∧ (∀ c ∈ ds, c.isDigit) ∧ digitsToNat ds = n ∧
        ('[' :: 'P' :: 'a' :: 'g' :: 'e' :: ' ' :: (ds ++ [']'])) <:+: lin)
    (by intro n hn; simp at hn)
    (by
      intro c cs e r hfc ih n hn
      have hp : ∃ m, pageTok (c :: cs) = some (m, r) ∧ e = [m] := by
        unfold pageNumTok at hfc
        cases hq : pageTok (c :: cs) with
        | none => rw [hq] at hfc; simp at hfc
        | some p =>
          rw [hq] at hfc
          simp only [Option.map_some', Option.some.injEq, Prod.mk.injEq] at hfc
          obtain ⟨h1, h2⟩ := hfc
          subst h2
          exact ⟨p.1, by simp [hq], h1.symm⟩
      obtain ⟨m, hm, he⟩ := hp
      obtain ⟨ds, hds1, hds2, hds3, hdec⟩ := pageTok_some hm
      rcases List.mem_append.mp hn with hn | hn
      · rw [he] at hn
        simp at hn
        subst hn
        exact ⟨ds, hds1, hds2, hds3, by
          rw [hdec]
          exact ⟨[], r, by simp⟩⟩
      · obtain ⟨ds', h1, h2, h3, h4⟩ := ih n hn
        refine ⟨ds', h1, h2, h3, h4.trans (List.IsSuffix.isInfix ?_)⟩
        rw [hdec]
        exact ⟨'[' :: 'P' :: 'a' :: 'g' :: 'e' :: ' ' :: ds ++ [']'], by simp⟩)
    (by
      intro c cs hfc ih n hn
      simp only [List.nil_append] at hn
      obtain ⟨ds', h1, h2, h3, h4⟩ := ih n hn
      exact ⟨ds', h1, h2, h3, h4.trans (List.IsSuffix.isInfix (List.suffix_cons c cs))⟩)
  exact this

end RagPdf

namespace RagPdf

/-- C1, counterexample to the claim as stated: the digit run of a marker may
be `0`, which `extractPageNumbers` returns although it is not a positive
integer. -/
theorem extractPageNumbers_zero_cex :
    extractPageNumbers "[Page 0]" = [0] ∧
      ¬ (∀ n ∈ extractPageNumbers "[Page 0]", 0 < n) := by
  constructor
  · decide
  · decide

/-- C1 (amended): for every input string, `extractPageNumbers` is strictly
ascending (hence duplicate-free), and every returned value is the parsed
integer of a literal `[Page N]` marker occurring in the input; the values
are natural numbers but need not be positive (`[Page 0]` yields `0`). -/
theorem extractPageNumbers_ascending_sound (content : String) :
    (extractPageNumbers content).Sorted (· < ·) ∧
    ∀ n ∈ extractPageNumbers content,
      ∃ ds : List Char, ds ≠ [] ∧ (∀ c ∈ ds, c.isDigit) ∧ digitsToNat ds = n ∧
        ('[' :: 'P' :: 'a' :: 'g' :: 'e' :: ' ' :: (ds ++ [']'])) <:+: content.data := by
  constructor
  · have hle : (extractPageNumbers content).Sorted (· ≤ ·) :=
      List.sorted_insertionSort (· ≤ ·) _
    have hnd : (extractPageNumbers content).Nodup := by
      unfold extractPageNumbers
      exact ((List.perm_insertionSort (· ≤ ·) _).nodup_iff).mpr (List.nodup_dedup _)
    exact hle.lt_of_le hnd
  · intro n hn
    unfold extractPageNumbers at hn
    rw [List.mem_insertionSort, List.mem_dedup] at hn
    exact pageMatches_sound content.data n hn

/-- Witness for C1 at a concrete input with a repeated marker. -/
theorem extractPageNumbers_ascending_sound_witness :
    (extractPageNumbers "See [Page 2] and [Page 2]").Sorted (· < ·) ∧
    ∃ ds : List Char, ds ≠ [] ∧ (∀ c ∈ ds, c.isDigit) ∧ digitsToNat ds = 2 ∧
      ('[' :: 'P' :: 'a' :: 'g' :: 'e' :: ' ' :: (ds ++ [']'])) <:+:
        ("See [Page 2] and [Page 2]" : String).data :=
  ⟨(extractPageNumbers_ascending_sound "See [Page 2] and [Page 2]").1,
   (extractPageNumbers_ascending_sound "See [Page 2] and [Page 2]").2 2 (by decide)⟩

end RagPdf

namespace RagPdf

/-! ## Context Cleaner -/

theorem wsTok_consuming : Consuming wsTok := by
  intro l e r h
  cases l with
  | nil => simp [wsTok] at h
  | cons c cs =>
    simp only [wsTok] at h
    split at h
    · simp only [Option.some.injEq, Prod.mk.injEq] at h
      obtain ⟨h1, h2⟩ := h
      subst h2
      have := (List.dropWhile_sublist (l := cs) (p := isJsWS)).length_le
      simp only [List.length_cons]
      omega
    · simp at h

theorem undefTok_consuming : Consuming undefTok := by
  intro l e r h
  unfold undefTok at h
  split at h
  · rename_i hpre
    simp only [Option.some.injEq, Prod.mk.injEq] at h
    obtain ⟨h1, h2⟩ := h
    subst h2
    have hlen : ("undefined".toList).length ≤ l.length :=
      ( List.isPrefixOf_iff_prefix.mp hpre).length_le
    simp only [List.length_drop]
    simp at hlen
    omega
  · simp at h

theorem dotRunTok_consuming : Consuming dotRunTok := by
  intro l e r h
  unfold dotRunTok at h
  split at h
  · rename_i hge
    simp only [Option.some.injEq, Prod.mk.injEq] at h
    obtain ⟨h1, h2⟩ := h
    subst h2
    have hsplit := congrArg List.length
      (List.takeWhile_append_dropWhile (p := (· == '.')) (l := l))
    simp only [List.length_append] at hsplit
    omega
  · simp at h

/-- Characters of the trimmed list come from the original list. -/
theorem mem_of_mem_jsTrim {c : Char} {w : List Char} (h : c ∈ jsTrim w) : c ∈ w := by
  unfold jsTrim at h
  rw [List.mem_reverse] at h
  have h2 := (List.dropWhile_sublist (l := (w.dropWhile isJsWS).reverse) (p := isJsWS)).mem h
  rw [List.mem_reverse] at h2
  exact (List.dropWhile_sublist (l := w) (p := isJsWS)).mem h2

/-- Every character surviving `cleanContext` is on the safelist. -/
theorem cleanList_safe {l : List Char} : ∀ c ∈ cleanList l, isSafeChar c = true := by
  intro c hc
  unfold cleanList at hc
  exact List.of_mem_filter (mem_of_mem_jsTrim hc)

/-- Characters of `collapseWS` are either the inserted space or non-whitespace
characters of the input. -/
theorem mem_collapseWS {w : List Char} :
    ∀ c ∈ collapseWS w, c = ' ' ∨ (c ∈ w ∧ isJsWS c = false) := by
  have := scanAll_rec wsTok_consuming (fun c => [c])
    (P := fun lin lout => ∀ c ∈ lout, c = ' ' ∨ (c ∈ lin ∧ isJsWS c = false))
    (by intro c hc; simp at hc)
    (by
      intro c cs e r hfc ih x hx
      simp only [wsTok] at hfc
      split at hfc
      · simp only [Option.some.injEq, Prod.mk.injEq] at hfc
        obtain ⟨h1, h2⟩ := hfc
        subst h1 h2
        rcases List.mem_append.mp hx with hx | hx
        · simp at hx
          exact Or.inl hx
        · rcases ih x hx with hx' | ⟨hx1, hx2⟩
          · exact Or.inl hx'
          · exact Or.inr ⟨List.mem_cons_of_mem c
              ((List.dropWhile_sublist (l := cs) (p := isJsWS)).mem hx1), hx2⟩
      · simp at hfc
    )
    (by
      intro c cs hfc ih x hx
      simp only [wsTok] at hfc
      split at hfc
      · simp at hfc
      · rename_i hws
        rcases List.mem_append.mp hx with hx | hx
        · simp at hx
          subst hx
          exact Or.inr ⟨List.mem_cons_self _ _, by simpa using hws⟩
        · rcases ih x hx with hx' | ⟨hx1, hx2⟩
          · exact Or.inl hx'
          · exact Or.inr ⟨List.mem_cons_of_mem c hx1, hx2⟩
    )
  exact this w

/-- Characters of `removeUndefined` come from the input. -/
theorem mem_removeUndefined {w : List Char} : ∀ c ∈ removeUndefined w, c ∈ w := by
  have := scanAll_rec undefTok_consuming (fun c => [c])
    (P := fun lin lout => ∀ c ∈ lout, c ∈ lin)
    (by intro c hc; simp at hc)
    (by
      intro c cs e r hfc ih x hx
      unfold undefTok at hfc
      split at hfc
      · simp only [Option.some.injEq, Prod.mk.injEq] at hfc
        obtain ⟨h1, h2⟩ := hfc
        subst h1 h2
        simp only [List.nil_append] at hx
        exact List.mem_of_mem_drop (ih x hx)
      · simp at hfc
    )
    (by
      intro c cs hfc ih x hx
      rcases List.mem_append.mp hx with hx | hx
      · simp at hx
        subst hx
        exact List.mem_cons_self _ _
      · exact List.mem_cons_of_mem c (ih x hx)
    )
  exact this w

/-- Every whitespace character surviving `cleanContext` is a plain space. -/
theorem cleanList_ws_space {l : List Char} :
    ∀ c ∈ cleanList l, isJsWS c = true → c = ' ' := by
  intro c hc hws
  unfold cleanList at hc
  have h1 := mem_of_mem_jsTrim hc
  have h2 := List.mem_of_mem_filter h1
  have h3 := mem_removeUndefined _ h2
  rcases mem_collapseWS _ h3 with h | ⟨_, hfalse⟩
  · exact h
  · rw [hws] at hfalse
    cases hfalse

theorem jsTrim_eq_rdrop (l : List Char) :
    jsTrim l = List.rdropWhile isJsWS (l.dropWhile isJsWS) := rfl

/-- Trimming is idempotent. -/
theorem jsTrim_idem (l : List Char) : jsTrim (jsTrim l) = jsTrim l := by
  have hdrop : (jsTrim l).dropWhile isJsWS = jsTrim l := by
    rw [jsTrim_eq_rdrop]
    cases hy : List.rdropWhile isJsWS (l.dropWhile isJsWS) with
    | nil => rfl
    | cons a ys =>
      have hpre : List.rdropWhile isJsWS (l.dropWhile isJsWS) <+: l.dropWhile isJsWS :=
        List.rdropWhile_prefix _ _
      rw [hy] at hpre
      obtain ⟨t, ht⟩ := hpre
      have hne : l.dropWhile isJsWS ≠ [] := by
        intro hnil
        rw [hnil] at ht
        simp at ht
      have hd : l.dropWhile isJsWS = a :: (ys ++ t) := by
        rw [← ht]
        simp
      have h0 := List.head_dropWhile_not isJsWS l hne
      simp only [hd, List.head_cons] at h0
      exact List.dropWhile_cons_of_neg (by simp [h0])
  rw [jsTrim_eq_rdrop, hdrop, jsTrim_eq_rdrop, List.rdropWhile_idempotent]

/-- Output of `cleanContext` is already trimmed. -/
theorem cleanList_trimmed {l : List Char} : jsTrim (cleanList l) = cleanList l := by
  unfold cleanList
  rw [jsTrim_idem]

end RagPdf

namespace RagPdf

/-- On safelisted text (which contains no bracket) the page-marker scan is the
identity. -/
theorem removePageMarkers_id {y : List Char} (hsafe : ∀ c ∈ y, isSafeChar c = true) :
    removePageMarkers y = y := by
  apply scanAll_id_of_none
  intro c cs hs
  cases hp : pageDelTok (c :: cs) with
  | none => rfl
  | some p =>
    exfalso
    unfold pageDelTok at hp
    cases hq : pageTok (c :: cs) with
    | none => rw [hq] at hp; simp at hp
    | some q =>
      obtain ⟨ds, _, _, _, hdec⟩ :=
        pageTok_some (show pageTok (c :: cs) = some (q.1, q.2) by simp [hq])
      have hc : c = '[' := by injection hdec
      have hmem : c ∈ y := hs.sublist.subset (List.mem_cons_self c cs)
      have := hsafe c hmem
      rw [hc] at this
      exact absurd this (by decide)

/-- Without a run of ten dots, the dot-run scan is the identity. -/
theorem removeDotRuns_id {y : List Char}
    (hdots : containsSub (List.replicate 10 '.') y = false) :
    removeDotRuns y = y := by
  apply scanAll_id_of_none
  intro c cs hs
  cases hp : dotRunTok (c :: cs) with
  | none => rfl
  | some p =>
    exfalso
    unfold dotRunTok at hp
    split at hp
    · rename_i hge
      have hall : ∀ b ∈ ((c :: cs).takeWhile (· == '.')).take 10, b = '.' := by
        intro b hb
        have hmem := List.mem_takeWhile_imp (( List.take_subset _ _) hb)
        simpa using hmem
      have hrep := List.eq_replicate_of_mem hall
      have hlen : (((c :: cs).takeWhile (· == '.')).take 10).length = 10 := by
        rw [List.length_take]
        omega
      rw [hlen] at hrep
      have hpre : List.replicate 10 '.' <+: (c :: cs) := by
        rw [← hrep]
        exact ( List.take_prefix _ _).trans ( List.takeWhile_prefix _)
      have hinf : List.replicate 10 '.' <:+: y := hpre.isInfix.trans hs.isInfix
      rw [containsSub_spec.mpr hinf] at hdots
      cases hdots
    · simp at hp

/-- If all whitespace is single plain spaces, the whitespace collapse is the
identity. -/
theorem collapseWS_id {y : List Char}
    (hsp : ∀ c ∈ y, isJsWS c = true → c = ' ')
    (hdd : containsSub [' ', ' '] y = false) :
    collapseWS y = y := by
  induction y with
  | nil => rfl
  | cons c cs ih =>
    have hnopre : [' ', ' '].isPrefixOf (c :: cs) = false ∧ containsSub [' ', ' '] cs = false := by
      have : containsSub [' ', ' '] (c :: cs) =
          ([' ', ' '].isPrefixOf (c :: cs) || containsSub [' ', ' '] cs) := rfl
      rw [this] at hdd
      exact ⟨(Bool.or_eq_false_iff.mp hdd).1, (Bool.or_eq_false_iff.mp hdd).2⟩
    have hsp' : ∀ x ∈ cs, isJsWS x = true → x = ' ' :=
      fun x hx => hsp x (List.mem_cons_of_mem c hx)
    cases hws : isJsWS c with
    | false =>
      show scanAll wsTok (fun c => [c]) (c :: cs) = c :: cs
      rw [scanAll_cons_none (g := fun c => [c])
        (show wsTok (c :: cs) = none by simp [wsTok, hws])]
      show c :: collapseWS cs = c :: cs
      rw [ih hsp' hnopre.2]
    | true =>
      have hc : c = ' ' := hsp c (List.mem_cons_self c cs) hws
      have hrest : cs.dropWhile isJsWS = cs := by
        cases cs with
        | nil => rfl
        | cons b bs =>
          cases hb : isJsWS b with
          | false => exact List.dropWhile_cons_of_neg (by simp [hb])
          | true =>
            exfalso
            have hbsp : b = ' ' :=
              hsp b (List.mem_cons_of_mem c (List.mem_cons_self b bs)) hb
            have : [' ', ' '].isPrefixOf (c :: b :: bs) = true := by
              subst hc hbsp
              simp [List.isPrefixOf]
            rw [this] at hnopre
            simp at hnopre
      show scanAll wsTok (fun c => [c]) (c :: cs) = c :: cs
      rw [scanAll_cons_some wsTok_consuming (g := fun c => [c])
        (show wsTok (c :: cs) = some ([' '], cs.dropWhile isJsWS) by simp [wsTok, hws])]
      rw [hrest]
      show ' ' :: collapseWS cs = c :: cs
      rw [ih hsp' hnopre.2, hc]

/-- Without an occurrence of `undefined`, the `undefined` scan is the
identity. -/
theorem removeUndefined_id {y : List Char}
    (hund : containsSub ("undefined".toList) y = false) :
    removeUndefined y = y := by
  apply scanAll_id_of_none
  intro c cs hs
  cases hp : undefTok (c :: cs) with
  | none => rfl
  | some p =>
    exfalso
    unfold undefTok at hp
    split at hp
    · rename_i hpre
      have hinf : ("undefined".toList) <:+: y :=
        ( List.isPrefixOf_iff_prefix.mp hpre).isInfix.trans hs.isInfix
      rw [containsSub_spec.mpr hinf] at hund
      cases hund
    · simp at hp

/-- C2, counterexample to the claim as stated: removing `undefined` merges the
surrounding spaces into a double space, which a second application collapses,
so `cleanContext` is not idempotent. -/
theorem cleanContext_not_idem_cex :
    cleanContext "a undefined b" = "a  b" ∧ cleanContext "a  b" = "a b" ∧
      cleanContext (cleanContext "a undefined b") ≠ cleanContext "a undefined b" := by
  refine ⟨by decide, by decide, by decide⟩

/-- C2 (amended): `cleanContext` is idempotent on every input whose cleaned
output contains no occurrence of `undefined`, no run of ten dots, and no two
adjacent spaces.  (Each excluded artifact is reachable: deleting `undefined`,
special characters, or a page marker can merge dots or spaces, and deleting
special characters can even form a fresh `undefined`, so a second pass can
differ exactly when one of the three patterns survives in the output.) -/
theorem cleanContext_idem_of (x : String)
    (h1 : containsSub ("undefined".toList) (cleanContext x).data = false)
    (h2 : containsSub (List.replicate 10 '.') (cleanContext x).data = false)
    (h3 : containsSub [' ', ' '] (cleanContext x).data = false) :
    cleanContext (cleanContext x) = cleanContext x := by
  have key : cleanList (cleanList x.data) = cleanList x.data := by
    have hsafe := cleanList_safe (l := x.data)
    have hsp := cleanList_ws_space (l := x.data)
    have htrim := cleanList_trimmed (l := x.data)
    have h1' : containsSub ("undefined".toList) (cleanList x.data) = false := h1
    have h2' : containsSub (List.replicate 10 '.') (cleanList x.data) = false := h2
    have h3' : containsSub [' ', ' '] (cleanList x.data) = false := h3
    set y := cleanList x.data with hy
    have hspecial : removeSpecial y = y := List.filter_eq_self.mpr hsafe
    calc cleanList y
        = jsTrim (removeSpecial (removeUndefined (collapseWS
            (removeDotRuns (removePageMarkers y))))) := rfl
      _ = y := by
          rw [removePageMarkers_id hsafe, removeDotRuns_id h2', collapseWS_id hsp h3',
            removeUndefined_id h1', hspecial, htrim]
  show (⟨cleanList (cleanContext x).data⟩ : String) = cleanContext x
  show (⟨cleanList (cleanList x.data)⟩ : String) = cleanContext x
  rw [key]
  rfl

/-- Witness for C2 at a concrete input satisfying the three conditions. -/
theorem cleanContext_idem_of_witness :
    (containsSub ("undefined".toList) (cleanContext "Hello  world.").data = false ∧
      containsSub (List.replicate 10 '.') (cleanContext "Hello  world.").data = false ∧
      containsSub [' ', ' '] (cleanContext "Hello  world.").data = false) ∧
    cleanContext (cleanContext "Hello  world.") = cleanContext "Hello  world." :=
  ⟨⟨by decide, by decide, by decide⟩,
    cleanContext_idem_of "Hello  world." (by decide) (by decide) (by decide)⟩

end RagPdf

namespace RagPdf

/-! ## Relevance Ranker -/

/-- C3, counterexample to the claim as stated: with every candidate scoring
zero the ranker returns `"."` (the unconditionally appended terminal period),
not the empty string. -/
theorem filterRelevantContent_all_zero_cex :
    (∀ s ∈ sentenceCandidates ("hello world again!" : String).data,
        scoreSentence ("zz" : String).data "general" s = 0) ∧
      filterRelevantContent "hello world again!" "zz" "general" = "." ∧
      filterRelevantContent "hello world again!" "zz" "general" ≠ "" := by
  refine ⟨by decide, by decide, by decide⟩

/-- C3 (amended): if every sentence candidate scores zero, the ranker selects
no sentence and its output is exactly the one-character string `"."` coming
from the appended terminal period (in particular it is never the empty
string). -/
theorem filterRelevantContent_all_zero (content query pdfType : String)
    (h : ∀ s ∈ sentenceCandidates content.data, scoreSentence query.data pdfType s = 0) :
    filterRelevantContent content query pdfType = "." := by
  have hfilter : relevantScored content.data query.data pdfType = [] := by
    unfold relevantScored
    rw [List.filter_eq_nil_iff]
    intro item hitem
    unfold scoredSentences at hitem
    obtain ⟨s, hsmem, rfl⟩ := List.mem_map.mp hitem
    simp [h s hsmem]
  unfold filterRelevantContent relevantSentences rankedScored
  rw [hfilter]
  decide

/-- Witness for C3 at a concrete input where the only candidate scores zero. -/
theorem filterRelevantContent_all_zero_witness :
    (∀ s ∈ sentenceCandidates ("hello world again!" : String).data,
        scoreSentence ("zz" : String).data "general" s = 0) ∧
      filterRelevantContent "hello world again!" "zz" "general" = "." :=
  ⟨by decide, filterRelevantContent_all_zero "hello world again!" "zz" "general" (by decide)⟩

/-- C4 (confirmed): the ranker output is built from at most seven selected
sentences, and every selected sentence has a strictly positive score. -/
theorem filterRelevantContent_topK (content query pdfType : String) :
    filterRelevantContent content query pdfType =
      ⟨List.intercalate (". ".toList)
        ((relevantSentences content.data query.data pdfType).take 7) ++ (".".toList)⟩ ∧
    ((relevantSentences content.data query.data pdfType).take 7).length ≤ 7 ∧
    ∀ s ∈ (relevantSentences content.data query.data pdfType).take 7,
      0 < scoreSentence query.data pdfType s := by
  refine ⟨rfl, List.length_take_le _ _, ?_⟩
  intro s hs
  have hs' : s ∈ relevantSentences content.data query.data pdfType :=
    List.take_subset _ _ hs
  unfold relevantSentences rankedScored at hs'
  obtain ⟨item, hitem, rfl⟩ := List.mem_map.mp hs'
  have hmem : item ∈ relevantScored content.data query.data pdfType :=
    (List.mem_insertionSort scoreGE).mp hitem
  unfold relevantScored at hmem
  obtain ⟨h1, h2⟩ := List.mem_filter.mp hmem
  unfold scoredSentences at h1
  obtain ⟨sent, hsent, heq⟩ := List.mem_map.mp h1
  subst heq
  simpa using h2

/-- Witness for C4 at a concrete input with one positively scored sentence. -/
theorem filterRelevantContent_topK_witness :
    ((relevantSentences ("Paris is the capital of France, a large city." : String).data
        ("capital" : String).data "general").take 7).length ≤ 7 ∧
    0 < scoreSentence ("capital" : String).data "general"
        ("Paris is the capital of France, a large city" : String).data :=
  ⟨(filterRelevantContent_topK "Paris is the capital of France, a large city."
      "capital" "general").2.1,
   (filterRelevantContent_topK "Paris is the capital of France, a large city."
      "capital" "general").2.2
      (("Paris is the capital of France, a large city" : String).data) (by decide)⟩

end RagPdf

namespace RagPdf

/-- The `forEach` accumulation of `+3` per matching keyword equals three times
the number of matching keywords. -/
theorem foldl_score_count (L : List (List Char)) (p : List Char → Bool) (init : Nat) :
    L.foldl (fun sc k => if p k then sc + 3 else sc) init = init + 3 * L.countP p := by
  induction L generalizing init with
  | nil => simp
  | cons k ks ih =>
    simp only [List.foldl_cons, List.countP_cons]
    cases hp : p k <;> simp [hp, ih]
    omega

/-- C6 (confirmed): on a document whose type is not `"qa"`, the source's
sentence score equals the specification formula: 3 per keyword of length
greater than three contained in the lowercased sentence, plus 10 for the full
lowercased query as substring, plus 15 for a definitional pattern; keywords of
length at most three contribute nothing. -/
theorem scoreSentence_eq_specScore (query sentence : List Char) (pdfType : String)
    (h : pdfType ≠ "qa") :
    scoreSentence query pdfType sentence = specScore query sentence := by
  unfold scoreSentence specScore
  have hqa : (pdfType == "qa") = false := beq_eq_false_iff_ne.mpr h
  simp only [hqa, Bool.false_and, Bool.false_eq_true, if_false]
  rw [foldl_score_count]
  cases h1 : containsSub (lowerList query) (lowerList sentence) <;>
    cases h2 : (((lowerList query) ++ (" is".toList)).isPrefixOf (lowerList sentence) ||
        ((lowerList query) ++ (" are".toList)).isPrefixOf (lowerList sentence) ||
        containsSub (("is ".toList) ++ (lowerList query)) (lowerList sentence) ||
        containsSub (("are ".toList) ++ (lowerList query)) (lowerList sentence) ||
        containsSub ("defined as".toList) (lowerList sentence) ||
        containsSub ("refers to".toList) (lowerList sentence)) <;>
    simp [h1, h2]

/-- Witness for C6 at a concrete non-"qa" input. -/
theorem scoreSentence_eq_specScore_witness :
    scoreSentence ("capital" : String).data "general"
        ("Paris is the capital of France" : String).data =
      specScore ("capital" : String).data ("Paris is the capital of France" : String).data :=
  scoreSentence_eq_specScore ("capital" : String).data
    ("Paris is the capital of France" : String).data "general" (by decide)

/-- C7 (confirmed): the ranking is stable: for every score value, the ranked
list restricted to the sentences of that score equals the document-ordered
candidate list restricted to that score, so equal-score sentences appear in
the ranker output (a prefix projection of the ranked list) in document
order. -/
theorem rankedScored_stable (content query : List Char) (pdfType : String) (v : Nat) :
    (rankedScored content query pdfType).filter (fun item => item.score == v) =
      (relevantScored content query pdfType).filter (fun item => item.score == v) := by
  unfold rankedScored
  have hcpair : ((relevantScored content query pdfType).filter
      (fun item => item.score == v)).Pairwise scoreGE := by
    apply List.pairwise_of_forall_mem_list
    intro a ha b hb
    have ha' := (List.mem_filter.mp ha).2
    have hb' := (List.mem_filter.mp hb).2
    simp only [beq_iff_eq] at ha' hb'
    unfold scoreGE
    omega
  have hsub2 : List.Sublist ((relevantScored content query pdfType).filter
        (fun item => item.score == v))
      ((List.insertionSort scoreGE (relevantScored content query pdfType)).filter
        (fun item => item.score == v)) := by
    have hcfilter : ((relevantScored content query pdfType).filter
          (fun item => item.score == v)).filter (fun item => item.score == v) =
        (relevantScored content query pdfType).filter (fun item => item.score == v) :=
      List.filter_eq_self.mpr (fun a ha => (List.mem_filter.mp ha).2)
    exact hcfilter ▸ ((List.sublist_insertionSort hcpair (List.filter_sublist _)).filter _)
  have hperm : List.Perm
      ((List.insertionSort scoreGE (relevantScored content query pdfType)).filter
        (fun item => item.score == v))
      ((relevantScored content query pdfType).filter (fun item => item.score == v)) :=
    (List.perm_insertionSort scoreGE _).filter _
  exact (hsub2.eq_of_length hperm.length_eq.symm).symm

end RagPdf

namespace RagPdf

/-! ## Small-Talk Classifier and the chat endpoint -/

/-- C5, counterexample to the claim as stated: `"Who are you?"` (with the
question mark) matches none of the six patterns — `/^who are you$/i` requires
the end of the string immediately after `you` — so `isSmallTalk` rejects it
and retrieval is not skipped. -/
theorem smallTalk_whoAreYou_cex :
    smallTalkMatchCount "Who are you?" = 0 ∧ isSmallTalk "Who are you?" = false := by
  refine ⟨by decide, by decide⟩

/-- C5 (amended): `"Hello"`, `"hi"` and `"Thanks!"` each match exactly one
pattern and make the chat endpoint return the canned response with zero page
references and zero match count without consulting retrieval; `"Who are
you?"` matches no pattern (the trailing question mark defeats the anchored
pattern), while the bare `"Who are you"` matches exactly one. -/
theorem smallTalk_queries :
    (smallTalkMatchCount "Hello" = 1 ∧ isSmallTalk "Hello" = true) ∧
    (smallTalkMatchCount "hi" = 1 ∧ isSmallTalk "hi" = true) ∧
    (smallTalkMatchCount "Thanks!" = 1 ∧ isSmallTalk "Thanks!" = true) ∧
    (smallTalkMatchCount "Who are you?" = 0 ∧ isSmallTalk "Who are you?" = false) ∧
    (smallTalkMatchCount "Who are you" = 1 ∧ isSmallTalk "Who are you" = true) ∧
    (∀ query : String, isSmallTalk query = true →
      ∀ (pdfType depth : String) (retrieved : List String) (apiKeySet : Bool)
        (gen : String → Except String String),
        chatHandler query pdfType depth retrieved apiKeySet gen =
          { query := query, results := getSmallTalkResponse query,
            pageReferences := [], count := 0 }) := by
  refine ⟨⟨by decide, by decide⟩, ⟨by decide, by decide⟩, ⟨by decide, by decide⟩,
    ⟨by decide, by decide⟩, ⟨by decide, by decide⟩, ?_⟩
  intro query hq pdfType depth retrieved apiKeySet gen
  unfold chatHandler
  rw [hq]
  simp

/-- Witness for C5: the small-talk short circuit at the concrete query
`"Hello"` with concrete retrieval results and oracle. -/
theorem smallTalk_queries_witness :
    chatHandler "Hello" "general" "normal" ["[Page 3] chunk"] true
        (fun _ => Except.ok "answer") =
      { query := "Hello", results := getSmallTalkResponse "Hello",
        pageReferences := [], count := 0 } :=
  smallTalk_queries.2.2.2.2.2 "Hello" (by decide) "general" "normal"
    ["[Page 3] chunk"] true (fun _ => Except.ok "answer")

/-- C10 (confirmed): because only the first alternative of
`/^thanks|thank you|thx/` and `/^what's up|sup/` is anchored, any trimmed
lowercased query containing `sup`, `thank you` or `thx` is classified as
small talk; in particular the genuine document question
`"What is the supply chain?"` gets the canned response with zero page
references and zero match count, with retrieval never consulted. -/
theorem isSmallTalk_unanchored :
    (∀ query : String,
      containsSub ("sup".toList) (lowerList (jsTrim query.data)) = true →
        isSmallTalk query = true) ∧
    (∀ query : String,
      containsSub ("thank you".toList) (lowerList (jsTrim query.data)) = true →
        isSmallTalk query = true) ∧
    (∀ query : String,
      containsSub ("thx".toList) (lowerList (jsTrim query.data)) = true →
        isSmallTalk query = true) ∧
    isSmallTalk "What is the supply chain?" = true ∧
    (∀ (pdfType depth : String) (retrieved : List String) (apiKeySet : Bool)
        (gen : String → Except String String),
      chatHandler "What is the supply chain?" pdfType depth retrieved apiKeySet gen =
        { query := "What is the supply chain?",
          results := getSmallTalkResponse "What is the supply chain?",
          pageReferences := [], count := 0 }) := by
  refine ⟨?_, ?_, ?_, by decide, ?_⟩
  · intro query h
    unfold isSmallTalk
    apply List.any_eq_true.mpr
    refine ⟨patternWhatsUp, by simp [smallTalkPatterns], ?_⟩
    simp only [patternWhatsUp, Bool.or_eq_true]
    exact Or.inr (by simpa using h)
  · intro query h
    unfold isSmallTalk
    apply List.any_eq_true.mpr
    refine ⟨patternThanks, by simp [smallTalkPatterns], ?_⟩
    simp only [patternThanks, Bool.or_eq_true]
    exact Or.inl (Or.inr (by simpa using h))
  · intro query h
    unfold isSmallTalk
    apply List.any_eq_true.mpr
    refine ⟨patternThanks, by simp [smallTalkPatterns], ?_⟩
    simp only [patternThanks, Bool.or_eq_true]
    exact Or.inr (by simpa using h)
  · intro pdfType depth retrieved apiKeySet gen
    unfold chatHandler
    rw [show isSmallTalk "What is the supply chain?" = true from by decide]
    simp

/-- Witness for C10: concrete queries hijacked by the unanchored patterns,
and the concrete canned chat response for the supply-chain question. -/
theorem isSmallTalk_unanchored_witness :
    isSmallTalk "Did he say thx anywhere?" = true ∧
    chatHandler "What is the supply chain?" "general" "normal" ["[Page 3] chunk"] true
        (fun _ => Except.ok "answer") =
      { query := "What is the supply chain?",
        results := getSmallTalkResponse "What is the supply chain?",
        pageReferences := [], count := 0 } :=
  ⟨isSmallTalk_unanchored.2.2.1 "Did he say thx anywhere?" (by decide),
   isSmallTalk_unanchored.2.2.2.2 "general" "normal" ["[Page 3] chunk"] true
     (fun _ => Except.ok "answer")⟩

end RagPdf

namespace RagPdf

/-! ## Answer-Request Assembler -/

/-- C9 (confirmed): when the generation call raises, `generateEnhancedAnswer`
returns the locally synthesized templated fallback — which contains the
original query text and, when the page-reference list is non-empty, the
citation fragment — so the chat request completes with a payload and no error
propagates. -/
theorem generateEnhancedAnswer_error (apiKeySet : Bool) (gen : String → Except String String)
    (query context : String) (pageReferences : List Nat) (pdfType depth : String) (e : String)
    (h : gen (enhancedPrompt query context pageReferences pdfType depth) = Except.error e) :
    generateEnhancedAnswer apiKeySet gen query context pageReferences pdfType depth =
        enhancedFallback query pageReferences ∧
      containsSub query.data (enhancedFallback query pageReferences).data = true ∧
      (pageReferences ≠ [] →
        containsSub (pageRefFragment pageReferences).data
          (enhancedFallback query pageReferences).data = true) := by
  refine ⟨?_, ?_, ?_⟩
  · unfold generateEnhancedAnswer
    cases apiKeySet with
    | false => rfl
    | true =>
      rw [h]
      rfl
  · apply containsSub_spec.mpr
    unfold enhancedFallback
    refine ⟨("Based on the document, I found relevant information about \"" : String).data,
      ("\". " ++
        (if 0 < pageReferences.length then pageRefFragment pageReferences else "")).data, ?_⟩
    simp only [String.data_append, List.append_assoc]
  · intro hne
    apply containsSub_spec.mpr
    unfold enhancedFallback
    rw [if_pos (List.length_pos.mpr hne)]
    refine ⟨("Based on the document, I found relevant information about \"" ++ query ++
      "\". ").data, [], ?_⟩
    simp only [String.data_append, List.append_assoc, List.append_nil]

/-- Witness for C9: a concrete raising oracle yields the concrete fallback
with the query text and the citation fragment for page 3. -/
theorem generateEnhancedAnswer_error_witness :
    generateEnhancedAnswer true (fun _ => Except.error "quota") "q" "c" [3] "general"
        "normal" = enhancedFallback "q" [3] ∧
      containsSub ("q" : String).data (enhancedFallback "q" [3]).data = true ∧
      ([3] : List Nat) ≠ [] ∧
      containsSub (pageRefFragment [3]).data (enhancedFallback "q" [3]).data = true := by
  have h := generateEnhancedAnswer_error true (fun _ => Except.error "quota") "q" "c" [3]
    "general" "normal" "quota" rfl
  exact ⟨h.1, h.2.1, by decide, h.2.2 (by decide)⟩

set_option maxRecDepth 10000 in
/-- C8, counterexample to the claim as stated: when the single retry also
returns a degenerate text, that text is not always returned verbatim — the
citation-append postprocessing still fires, here turning the degenerate retry
output `"ok2"` into `"ok2 This information can be found on pages 3."`. -/
theorem generateNaturalAnswer_retry_cex :
    generateNaturalAnswer true
        (fun p => if p = naturalRetryPrompt "q" "c" then Except.ok "ok2" else Except.ok "short")
        "q" "c" [3] "normal" =
      "ok2 This information can be found on pages 3." ∧
    isDegenerate "short" = true ∧ isDegenerate "ok2" = true ∧
    ("ok2 This information can be found on pages 3." : String) ≠ "ok2" := by
  refine ⟨by decide, by decide, by decide, by decide⟩

/-- C8 (amended): at most two generation calls ever happen; when the first
call returns a degenerate text (refusal phrase or length below the minimum),
exactly one retry with the relaxed prompt is issued, and the retry result is
returned with no further repair attempt — subject only to the standard
citation-append step, which adds the page fragment when references exist,
the fragment is absent, and the text is not an `I couldn\x27t find`
response. -/
theorem generateNaturalAnswer_retry (gen : String → Except String String)
    (query context : String) (pageReferences : List Nat) (depth : String) :
    (∀ apiKeySet,
      (naturalAnswerCalls apiKeySet gen query context pageReferences depth).length ≤ 2) ∧
    (∀ first second : String,
      gen (naturalPrompt query context pageReferences depth) = Except.ok first →
      isDegenerate first = true →
      gen (naturalRetryPrompt query context) = Except.ok second →
      naturalAnswerCalls true gen query context pageReferences depth =
        [naturalPrompt query context pageReferences depth,
         naturalRetryPrompt query context] ∧
      generateNaturalAnswer true gen query context pageReferences depth =
        (if (!(pageRefText pageReferences == "") &&
              !containsSub (pageRefText pageReferences).data second.data &&
              !containsSub ("I couldn\x27t find".toList) second.data)
         then second ++ " " ++ pageRefText pageReferences else second)) := by
  constructor
  · intro apiKeySet
    unfold naturalAnswerCalls
    cases apiKeySet with
    | false => simp
    | true =>
      simp only [Bool.not_true, Bool.false_eq_true, if_false]
      cases gen (naturalPrompt query context pageReferences depth) with
      | error e => simp
      | ok first =>
        cases hd : isDegenerate first <;> simp [hd]
  · intro first second h1 h2 h3
    constructor
    · unfold naturalAnswerCalls
      simp [h1, h2]
    · unfold generateNaturalAnswer
      rw [h1]
      simp only [bind, Except.bind, h2, if_pos, h3]
      rfl

set_option maxRecDepth 10000 in
/-- Witness for C8: with a concrete oracle whose first answer is degenerate,
exactly the two prompts are issued and the retry output is returned after
the citation append. -/
theorem generateNaturalAnswer_retry_witness :
    naturalAnswerCalls true
        (fun p => if p = naturalRetryPrompt "q" "c" then Except.ok "ok2" else Except.ok "short")
        "q" "c" [3] "normal" =
      [naturalPrompt "q" "c" [3] "normal", naturalRetryPrompt "q" "c"] ∧
    generateNaturalAnswer true
        (fun p => if p = naturalRetryPrompt "q" "c" then Except.ok "ok2" else Except.ok "short")
        "q" "c" [3] "normal" =
      (if (!(pageRefText [3] == "") &&
            !containsSub (pageRefText [3]).data ("ok2" : String).data &&
            !containsSub ("I couldn\x27t find".toList) ("ok2" : String).data)
       then ("ok2" : String) ++ " " ++ pageRefText [3] else "ok2") :=
  (generateNaturalAnswer_retry
      (fun p => if p = naturalRetryPrompt "q" "c" then Except.ok "ok2" else Except.ok "short")
      "q" "c" [3] "normal").2 "short" "ok2" rfl (by decide) rfl

end RagPdf
